import Mathlib

/-!
Verification of the ArcadeRS simulation core against its specification.

The Rust source is shallowly embedded in Lean. Floating-point values (`f64`)
are modelled as exact rationals (`ℚ`); decimal literals of the source such as
`0.70` and `0.1` are taken at their exact decimal value. Rust `as usize`
casts of nonnegative in-range values truncate toward zero and saturate
negative values to `0`, which is modelled by `Int.toNat ∘ Int.floor`.
Fallible operations (`panic!`, `unwrap`, `Option`) are modelled with
`Option`.
-/

namespace ArcadeRS

/-! ## Geometry (src/phi/data.rs) -/

/-- Embedding of `Rectangle` from src/phi/data.rs: an axis-aligned box with
floating-point (here: rational) position and size. -/
structure Rectangle where
  x : ℚ
  y : ℚ
  w : ℚ
  h : ℚ
deriving DecidableEq, Repr

/-- Embedding of `Rectangle::move_inside`: `None` when `self` does not fit in
`parent`, otherwise the rectangle with `x`, `y` clamped so it lies inside
`parent`. -/
def Rectangle.move_inside (self parent : Rectangle) : Option Rectangle :=
  if self.w > parent.w ∨ self.h > parent.h then
    none
  else
    some { w := self.w
           h := self.h
           x := if self.x < parent.x then parent.x
                else if self.x + self.w ≥ parent.x + parent.w then parent.x + parent.w - self.w
                else self.x
           y := if self.y < parent.y then parent.y
                else if self.y + self.h ≥ parent.y + parent.h then parent.y + parent.h - self.h
                else self.y }

/-- Embedding of `Rectangle::contains` (closed-interval containment test). -/
def Rectangle.contains (self rect : Rectangle) : Bool :=
  let xmin := rect.x
  let xmax := xmin + rect.w
  let ymin := rect.y
  let ymax := ymin + rect.h
  decide (xmin ≥ self.x) && decide (xmin ≤ self.x + self.w) &&
  decide (xmax ≥ self.x) && decide (xmax ≤ self.x + self.w) &&
  decide (ymin ≥ self.y) && decide (ymin ≤ self.y + self.h) &&
  decide (ymax ≥ self.y) && decide (ymax ≤ self.y + self.h)

/-- Embedding of `Rectangle::overlaps` (strict-inequality AABB overlap test). -/
def Rectangle.overlaps (self other : Rectangle) : Bool :=
  decide (self.x < other.x + other.w) &&
  decide (self.x + self.w > other.x) &&
  decide (self.y < other.y + other.h) &&
  decide (self.y + self.h > other.y)

/-- Embedding of `Rectangle::with_size`: a `w × h` rectangle at the origin. -/
def Rectangle.with_size (w h : ℚ) : Rectangle :=
  { w := w, h := h, x := 0, y := 0 }

/-- Embedding of `Rectangle::center_at`: reposition so that the rectangle is
centered at the given point, keeping its size. -/
def Rectangle.center_at (self : Rectangle) (center : ℚ × ℚ) : Rectangle :=
  { self with x := center.1 - self.w / 2, y := center.2 - self.h / 2 }

/-- Embedding of `Rectangle::center`. -/
def Rectangle.center (self : Rectangle) : ℚ × ℚ :=
  (self.x + self.w / 2, self.y + self.h / 2)

/-- Embedding of `MaybeAlive` from src/phi/data.rs. -/
structure MaybeAlive (T : Type) where
  alive : Bool
  value : T

/-- Embedding of `MaybeAlive::as_option`. -/
def MaybeAlive.as_option {T : Type} (self : MaybeAlive T) : Option T :=
  if self.alive then some self.value else none

/-! ## Basic geometry lemmas -/

theorem overlaps_eq_true_iff (a b : Rectangle) :
    a.overlaps b = true ↔
      (a.x < b.x + b.w ∧ a.x + a.w > b.x ∧ a.y < b.y + b.h ∧ a.y + a.h > b.y) := by
  simp [Rectangle.overlaps, and_assoc]

theorem center_at_center (r : Rectangle) (c : ℚ × ℚ) :
    (r.center_at c).center = c := by
  obtain ⟨cx, cy⟩ := c
  simp only [Rectangle.center_at, Rectangle.center, Prod.mk.injEq]
  constructor <;> ring

theorem clamp_bounds (x w px pw : ℚ) (hw : w ≤ pw) :
    px ≤ (if x < px then px else if x + w ≥ px + pw then px + pw - w else x) ∧
    (if x < px then px else if x + w ≥ px + pw then px + pw - w else x) + w ≤ px + pw := by
  split_ifs with h1 h2 <;> constructor <;> linarith

theorem clamp_fixed (x w px pw : ℚ) (h1 : px ≤ x) (h2 : x + w ≤ px + pw) :
    (if x < px then px else if x + w ≥ px + pw then px + pw - w else x) = x := by
  split_ifs with ha hb
  · linarith
  · linarith
  · rfl

theorem move_inside_spec_aux (a p : Rectangle) :
    (a.move_inside p = none ↔ a.w > p.w ∨ a.h > p.h) ∧
    ∀ r, a.move_inside p = some r →
      r.w = a.w ∧ r.h = a.h ∧
      p.x ≤ r.x ∧ r.x + r.w ≤ p.x + p.w ∧ p.y ≤ r.y ∧ r.y + r.h ≤ p.y + p.h ∧
      r.move_inside p = some r := by
  by_cases hbig : a.w > p.w ∨ a.h > p.h
  · simp only [Rectangle.move_inside]
    rw [if_pos hbig]
    exact ⟨iff_of_true rfl hbig, fun r hr => absurd hr (by simp)⟩
  · simp only [Rectangle.move_inside]
    rw [if_neg hbig]
    refine ⟨iff_of_false (by simp) hbig, ?_⟩
    push_neg at hbig
    obtain ⟨hw, hh⟩ := hbig
    intro r hr
    injection hr with hr
    subst hr
    obtain ⟨hx1, hx2⟩ := clamp_bounds a.x a.w p.x p.w hw
    obtain ⟨hy1, hy2⟩ := clamp_bounds a.y a.h p.y p.h hh
    refine ⟨rfl, rfl, hx1, hx2, hy1, hy2, ?_⟩
    simp only [Rectangle.move_inside]
    rw [if_neg (by push_neg; exact ⟨hw, hh⟩)]
    simp only [Option.some.injEq, Rectangle.mk.injEq]
    exact ⟨clamp_fixed _ _ _ _ hx1 hx2, clamp_fixed _ _ _ _ hy1 hy2, trivial, trivial⟩

/-- C7: `move_inside` returns `none` iff the rectangle is wider or taller than the
bound; otherwise it returns a rectangle of the same width and height lying fully
within the bound, and `move_inside` against the same bound is idempotent. -/
theorem move_inside_none_iff_inside_idem (a p : Rectangle) :
    (a.move_inside p = none ↔ a.w > p.w ∨ a.h > p.h) ∧
    ∀ r, a.move_inside p = some r →
      r.w = a.w ∧ r.h = a.h ∧
      p.x ≤ r.x ∧ r.x + r.w ≤ p.x + p.w ∧ p.y ≤ r.y ∧ r.y + r.h ≤ p.y + p.h ∧
      r.move_inside p = some r :=
  move_inside_spec_aux a p

/-- Witness for C7 at a concrete input: a 4×5 rectangle at (12, -3) clamped into
the 10×10 box at the origin. -/
theorem move_inside_none_iff_inside_idem_witness :
    (Rectangle.mk 12 (-3) 4 5).move_inside (Rectangle.mk 0 0 10 10) =
      some (Rectangle.mk 6 0 4 5) ∧
    (Rectangle.mk 6 0 4 5).move_inside (Rectangle.mk 0 0 10 10) =
      some (Rectangle.mk 6 0 4 5) := by
  have h := (move_inside_none_iff_inside_idem (Rectangle.mk 12 (-3) 4 5)
    (Rectangle.mk 0 0 10 10)).2 (Rectangle.mk 6 0 4 5)
    (by norm_num [Rectangle.move_inside])
  exact ⟨by norm_num [Rectangle.move_inside], h.2.2.2.2.2.2⟩

/-- C6 (amended): for rectangles with positive widths and heights, `overlaps` is
symmetric, edge-touching rectangles do not overlap, and `overlaps` holds iff the
projections on both axes intersect with nonzero width. For merely nonnegative
(possibly zero) widths the last equivalence fails, see the counterexample. -/
theorem overlaps_symm_open_characterization (a b : Rectangle)
    (ha : 0 < a.w) (hb : 0 < a.h) (hc : 0 < b.w) (hd : 0 < b.h) :
    a.overlaps b = b.overlaps a ∧
    (a.x + a.w = b.x → a.overlaps b = false) ∧
    (a.overlaps b = true ↔
      (max a.x b.x < min (a.x + a.w) (b.x + b.w) ∧
       max a.y b.y < min (a.y + a.h) (b.y + b.h))) := by
  refine ⟨?_, ?_, ?_⟩
  · rw [Bool.eq_iff_iff, overlaps_eq_true_iff, overlaps_eq_true_iff]
    constructor <;> rintro ⟨h1, h2, h3, h4⟩ <;> exact ⟨h2, h1, h4, h3⟩
  · intro h
    rw [Bool.eq_false_iff]
    intro hT
    rw [overlaps_eq_true_iff] at hT
    obtain ⟨_, h2, _, _⟩ := hT
    rw [h] at h2
    exact lt_irrefl _ h2
  · rw [overlaps_eq_true_iff]
    constructor
    · rintro ⟨h1, h2, h3, h4⟩
      exact ⟨max_lt (lt_min (by linarith) h1) (lt_min h2 (by linarith)),
             max_lt (lt_min (by linarith) h3) (lt_min h4 (by linarith))⟩
    · rintro ⟨hx, hy⟩
      rw [max_lt_iff, lt_min_iff, lt_min_iff] at hx hy
      exact ⟨hx.1.2, hx.2.1, hy.1.2, hy.2.1⟩

/-- Witness for C6 at a concrete input: two overlapping unit-ish boxes. -/
theorem overlaps_symm_open_characterization_witness :
    (Rectangle.mk 0 0 2 2).overlaps (Rectangle.mk 1 1 2 2) =
      (Rectangle.mk 1 1 2 2).overlaps (Rectangle.mk 0 0 2 2) :=
  (overlaps_symm_open_characterization (Rectangle.mk 0 0 2 2) (Rectangle.mk 1 1 2 2)
    (by norm_num) (by norm_num) (by norm_num) (by norm_num)).1

/-- C6 counterexample: with a zero-width (still nonnegative-size) rectangle the
code reports an overlap although the projections on the x-axis intersect with
zero width, so the claim as stated over nonnegative sizes is false. -/
theorem overlaps_degenerate_cex :
    (Rectangle.mk 1 0 0 1).overlaps (Rectangle.mk 0 0 2 1) = true ∧
    0 ≤ (Rectangle.mk 1 0 0 1).w ∧ 0 ≤ (Rectangle.mk 1 0 0 1).h ∧
    0 ≤ (Rectangle.mk 0 0 2 1).w ∧ 0 ≤ (Rectangle.mk 0 0 2 1).h ∧
    ¬ (max (Rectangle.mk 1 0 0 1).x (Rectangle.mk 0 0 2 1).x <
         min ((Rectangle.mk 1 0 0 1).x + (Rectangle.mk 1 0 0 1).w)
             ((Rectangle.mk 0 0 2 1).x + (Rectangle.mk 0 0 2 1).w) ∧
       max (Rectangle.mk 1 0 0 1).y (Rectangle.mk 0 0 2 1).y <
         min ((Rectangle.mk 1 0 0 1).y + (Rectangle.mk 1 0 0 1).h)
             ((Rectangle.mk 0 0 2 1).y + (Rectangle.mk 0 0 2 1).h)) := by
  refine ⟨by norm_num [Rectangle.overlaps], by norm_num, by norm_num, by norm_num,
    by norm_num, ?_⟩
  rintro ⟨hx, -⟩
  norm_num [max_def, min_def] at hx

/-! ## Animated sprites (src/phi/gfx.rs) -/

/-- Embedding of `AnimatedSprite` from src/phi/gfx.rs. A frame (`Sprite`) is
modelled by its source-region rectangle; the shared texture handle is
platform-side and carries no simulation state. -/
structure AnimatedSprite where
  sprites : List Rectangle
  frame_delay : ℚ
  current_time : ℚ
deriving DecidableEq, Repr

/-- Embedding of `AnimatedSprite::new`. -/
def AnimatedSprite.new (sprites : List Rectangle) (frame_delay : ℚ) : AnimatedSprite :=
  { sprites := sprites, frame_delay := frame_delay, current_time := 0 }

/-- Embedding of `AnimatedSprite::with_fps`; the `panic!` on `fps == 0.0` is
modelled as `none`. -/
def AnimatedSprite.with_fps (sprites : List Rectangle) (fps : ℚ) : Option AnimatedSprite :=
  if fps = 0 then none else some (AnimatedSprite.new sprites (1 / fps))

/-- Embedding of `AnimatedSprite::frames`. -/
def AnimatedSprite.frames (self : AnimatedSprite) : ℕ :=
  self.sprites.length

/-- Embedding of `AnimatedSprite::set_frame_delay` (stores the argument with no
check). -/
def AnimatedSprite.set_frame_delay (self : AnimatedSprite) (frame_delay : ℚ) : AnimatedSprite :=
  { self with frame_delay := frame_delay }

/-- Embedding of `AnimatedSprite::set_fps`; the `panic!` on `fps == 0.0` is
modelled as `none`. -/
def AnimatedSprite.set_fps (self : AnimatedSprite) (fps : ℚ) : Option AnimatedSprite :=
  if fps = 0 then none else some (self.set_frame_delay (1 / fps))

/-- Embedding of `AnimatedSprite::add_time`: advance the cursor; a negative
cursor is reset to the time of the last frame. The `usize` subtraction
`self.frames() - 1` is ℕ-truncated subtraction, as in the source for a
nonempty frame list. -/
def AnimatedSprite.add_time (self : AnimatedSprite) (dt : ℚ) : AnimatedSprite :=
  let s := { self with current_time := self.current_time + dt }
  if s.current_time < 0 then
    { s with current_time := ((s.frames - 1 : ℕ) : ℚ) * s.frame_delay }
  else
    s

/-- Rust `as usize` cast from `f64`: truncation toward zero, saturating at `0`
for negative values (upper saturation at `usize::MAX` is outside the modelled
range). For nonnegative values this is the floor; negative values map to `0`
under both truncation-then-saturation and `Int.toNat`. -/
def rustCastUsize (q : ℚ) : ℕ :=
  ⌊q⌋.toNat

/-- Embedding of the current-frame computation in `AnimatedSprite::render`
(src/phi/gfx.rs line 136): `(current_time / frame_delay) as usize % frames`. -/
def AnimatedSprite.current_frame (self : AnimatedSprite) : ℕ :=
  rustCastUsize (self.current_time / self.frame_delay) % self.frames

/-- Frame-index formula as written in the spec: `floor(elapsed / frame_delay)
mod frame_count`, with the mathematical (sign-normalising) `mod`. -/
def specFrameIndex (elapsed frame_delay : ℚ) (frame_count : ℕ) : ℤ :=
  ⌊elapsed / frame_delay⌋ % (frame_count : ℤ)

/-- C4 counterexample: starting from a sprite legally constructed through
`with_fps`, the mutation `set_frame_delay 0` makes `frame_delay` zero, so the
claimed invariant is not maintained by all mutations. -/
theorem frame_delay_zero_via_set_frame_delay_cex :
    (AnimatedSprite.with_fps [Rectangle.with_size 96 96] 16).map
      (fun s => (s.set_frame_delay 0).frame_delay) = some 0 := by
  norm_num [AnimatedSprite.with_fps, AnimatedSprite.new, AnimatedSprite.set_frame_delay]

/-- C4 (amended): construction through `with_fps` cannot produce a zero
`frame_delay`, and `set_fps` and `add_time` preserve `frame_delay ≠ 0`; but
`set_frame_delay` stores its argument unchecked, so it can set `frame_delay`
to zero. -/
theorem frame_delay_invariant_amended (sprites : List Rectangle) (fps : ℚ)
    (a : AnimatedSprite) (dt : ℚ) :
    (∀ s, AnimatedSprite.with_fps sprites fps = some s → s.frame_delay ≠ 0) ∧
    (∀ f s, a.set_fps f = some s → s.frame_delay ≠ 0) ∧
    (a.add_time dt).frame_delay = a.frame_delay ∧
    (a.set_frame_delay 0).frame_delay = 0 := by
  refine ⟨?_, ?_, ?_, rfl⟩
  · intro s hs
    simp only [AnimatedSprite.with_fps] at hs
    split_ifs at hs with h
    injection hs with hs
    subst hs
    exact one_div_ne_zero h
  · intro f s hs
    simp only [AnimatedSprite.set_fps] at hs
    split_ifs at hs with h
    injection hs with hs
    subst hs
    exact one_div_ne_zero h
  · simp only [AnimatedSprite.add_time]
    split <;> rfl

/-- Witness for C4 (amended) at a concrete sprite with `frame_delay = 1`. -/
theorem frame_delay_invariant_amended_witness :
    ((AnimatedSprite.mk [Rectangle.with_size 96 96] 1 0).add_time (1/2)).frame_delay =
      (AnimatedSprite.mk [Rectangle.with_size 96 96] 1 0).frame_delay :=
  (frame_delay_invariant_amended [] 1 (AnimatedSprite.mk [Rectangle.with_size 96 96] 1 0)
    (1/2)).2.2.1

/-- C5 counterexample: with a negative (hence nonzero) `frame_delay` of `-0.1`,
four frames and a nonnegative cursor of `0.25`, the rendered frame index is `0`
(the Rust float-to-usize cast saturates the negative quotient at zero) while the
spec formula `floor(elapsed / frame_delay) mod frame_count` yields `1`. -/
theorem current_frame_negative_delay_cex :
    (AnimatedSprite.mk [Rectangle.with_size 96 96, Rectangle.with_size 96 96,
        Rectangle.with_size 96 96, Rectangle.with_size 96 96] (-(1/10)) (1/4)).current_frame
      = 0 ∧
    specFrameIndex (1/4) (-(1/10)) 4 = 1 ∧
    ((AnimatedSprite.mk [Rectangle.with_size 96 96, Rectangle.with_size 96 96,
        Rectangle.with_size 96 96, Rectangle.with_size 96 96] (-(1/10)) (1/4)).current_frame
        : ℤ)
      ≠ specFrameIndex (1/4) (-(1/10)) 4 := by
  refine ⟨?_, ?_, ?_⟩
  · norm_num [AnimatedSprite.current_frame, AnimatedSprite.frames, rustCastUsize]
    decide
  · norm_num [specFrameIndex]
  · norm_num [AnimatedSprite.current_frame, AnimatedSprite.frames, rustCastUsize,
      specFrameIndex]

/-- C5 (amended): for a *positive* `frame_delay` and a nonempty frame list, the
rendered frame index is `floor(elapsed / frame_delay) mod frame_count` whenever
the cursor is nonnegative, and a cursor driven negative through `add_time` wraps
to the last frame; concretely, 4 frames at `frame_delay = 0.1` show frame 3 at
cursor `0.35`, and also frame 3 after `add_time` drives the cursor to `-0.05`.
For negative `frame_delay` the formula fails, see the counterexample. -/
theorem current_frame_formula_amended (s : AnimatedSprite)
    (hd : 0 < s.frame_delay) (hn : s.sprites ≠ []) :
    (0 ≤ s.current_time →
      (s.current_frame : ℤ) = specFrameIndex s.current_time s.frame_delay s.frames) ∧
    (∀ dt, s.current_time + dt < 0 → (s.add_time dt).current_frame = s.frames - 1) ∧
    (∀ r : Rectangle,
      (AnimatedSprite.mk [r, r, r, r] (1/10) (7/20)).current_frame = 3 ∧
      ((AnimatedSprite.mk [r, r, r, r] (1/10) (7/20)).add_time (-(2/5))).current_frame = 3) := by
  refine ⟨?_, ?_, ?_⟩
  · intro ht
    have hq : 0 ≤ s.current_time / s.frame_delay := div_nonneg ht hd.le
    have hf : (0:ℤ) ≤ ⌊s.current_time / s.frame_delay⌋ := Int.floor_nonneg.mpr hq
    simp only [AnimatedSprite.current_frame, rustCastUsize, specFrameIndex]
    push_cast
    rw [Int.toNat_of_nonneg hf]
  · intro dt hneg
    have hlen : 0 < s.sprites.length := List.length_pos.mpr hn
    have hdiv : (((s.sprites.length - 1 : ℕ) : ℚ) * s.frame_delay) / s.frame_delay
        = ((s.sprites.length - 1 : ℕ) : ℚ) := mul_div_cancel_right₀ _ (ne_of_gt hd)
    dsimp only [AnimatedSprite.add_time]
    rw [if_pos hneg]
    simp only [AnimatedSprite.current_frame, AnimatedSprite.frames, rustCastUsize]
    rw [hdiv, Int.floor_natCast, Int.toNat_natCast]
    exact Nat.mod_eq_of_lt (Nat.sub_lt hlen one_pos)
  · intro r
    constructor
    · norm_num [AnimatedSprite.current_frame, AnimatedSprite.frames, rustCastUsize]
      decide
    · norm_num [AnimatedSprite.add_time, AnimatedSprite.current_frame,
        AnimatedSprite.frames, rustCastUsize]
      decide

/-- Witness for C5 (amended) at a concrete sprite: 4 frames, `frame_delay = 0.1`,
cursor `0.35` renders frame 3. -/
theorem current_frame_formula_amended_witness :
    (AnimatedSprite.mk [Rectangle.with_size 96 96, Rectangle.with_size 96 96,
        Rectangle.with_size 96 96, Rectangle.with_size 96 96] (1/10) (7/20)).current_frame
      = 3 :=
  ((current_frame_formula_amended
      (AnimatedSprite.mk [Rectangle.with_size 96 96, Rectangle.with_size 96 96,
        Rectangle.with_size 96 96, Rectangle.with_size 96 96] (1/10) (7/20))
      (by norm_num) (by simp)).2.2 (Rectangle.with_size 96 96)).1

/-! ## Bullets (src/views/bullets.rs) -/

/-- Embedding of `BULLET_SPEED` (pixels per second, shared by all bullets). -/
def BULLET_SPEED : ℚ := 240

/-- Embedding of `BULLET_W`. -/
def BULLET_W : ℚ := 8

/-- Embedding of `BULLET_H`. -/
def BULLET_H : ℚ := 4

/-- Embedding of `RectBullet`. -/
structure RectBullet where
  rect : Rectangle
deriving DecidableEq, Repr

/-- Embedding of `RectBullet::update` (`impl Bullet for RectBullet`): move right
by `BULLET_SPEED * dt`; the bullet is deleted (`none`) once `x` exceeds the
screen width. The `phi.output_size()` query is modelled by the `size` argument. -/
def RectBullet.update (self : RectBullet) (size : ℚ × ℚ) (dt : ℚ) : Option RectBullet :=
  let r := { self.rect with x := self.rect.x + BULLET_SPEED * dt }
  if r.x > size.1 then none else some ⟨r⟩

/-- Iterated `RectBullet::update` over a list of per-frame `dt` values; once a
step reports the bullet dead the result stays `none`. -/
def RectBullet.updates (size : ℚ × ℚ) : RectBullet → List ℚ → Option RectBullet
  | b, [] => some b
  | b, dt :: rest =>
    match b.update size dt with
    | none => none
    | some b' => RectBullet.updates size b' rest

theorem RectBullet.update_eq (b : RectBullet) (size : ℚ × ℚ) (dt : ℚ) :
    b.update size dt = if b.rect.x + BULLET_SPEED * dt > size.1 then none
      else some ⟨⟨b.rect.x + BULLET_SPEED * dt, b.rect.y, b.rect.w, b.rect.h⟩⟩ := rfl

theorem RectBullet.updates_some_rect (size : ℚ × ℚ) (dts : List ℚ) :
    ∀ b b', RectBullet.updates size b dts = some b' →
      b'.rect = { b.rect with x := b.rect.x + BULLET_SPEED * dts.sum } := by
  induction dts with
  | nil =>
    intro b b' h
    injection h with h
    subst h
    simp
  | cons d rest ih =>
    intro b b' h
    simp only [RectBullet.updates, RectBullet.update_eq] at h
    split_ifs at h with hgt
    have h' := ih _ _ h
    rw [h']
    simp only [List.sum_cons, Rectangle.mk.injEq]
    exact ⟨by ring, trivial, trivial, trivial⟩

theorem RectBullet.updates_isSome_iff (size : ℚ × ℚ) (dts : List ℚ)
    (hd : ∀ d ∈ dts, 0 ≤ d) :
    ∀ b, b.rect.x ≤ size.1 →
      ((RectBullet.updates size b dts).isSome ↔
        b.rect.x + BULLET_SPEED * dts.sum ≤ size.1) := by
  induction dts with
  | nil =>
    intro b hx
    simp only [RectBullet.updates, Option.isSome_some, List.sum_nil, mul_zero, add_zero]
    exact iff_of_true trivial hx
  | cons d rest ih =>
    intro b hx
    have hrest : ∀ x ∈ rest, (0:ℚ) ≤ x := fun x hxm => hd x (List.mem_cons_of_mem d hxm)
    have hsum : (0:ℚ) ≤ rest.sum := List.sum_nonneg hrest
    have hdnn : (0:ℚ) ≤ d := hd d (List.mem_cons_self d rest)
    simp only [RectBullet.updates, RectBullet.update_eq, List.sum_cons]
    split_ifs with hgt
    · simp only [Option.isSome_none, Bool.false_eq_true, false_iff, not_le]
      have : (0:ℚ) ≤ BULLET_SPEED * rest.sum := by
        have : (0:ℚ) ≤ BULLET_SPEED := by norm_num [BULLET_SPEED]
        positivity
      nlinarith [hgt]
    · have := ih hrest ⟨⟨b.rect.x + BULLET_SPEED * d, b.rect.y, b.rect.w, b.rect.h⟩⟩
        (by simpa using not_lt.mp hgt)
      dsimp only at this
      rw [this]
      constructor <;> intro hle <;> · ring_nf at hle ⊢; linarith

/-- C8: a `Rect` bullet starting at `x = 0`, run through `update` with a list of
nonnegative `dt` values summing to `t`, sits at `x = BULLET_SPEED * t = 240 * t`
with `y`, `w`, `h` unchanged, and it is still alive iff `240 * t` is at most the
screen width (each `update` returns `none` exactly when `x` exceeds the screen
width). -/
theorem rectBullet_position_linear_alive_iff (y0 w0 h0 sw sh : ℚ) (dts : List ℚ)
    (hd : ∀ d ∈ dts, 0 ≤ d) (hw : 0 ≤ sw) :
    (∀ b', RectBullet.updates (sw, sh) ⟨⟨0, y0, w0, h0⟩⟩ dts = some b' →
      b'.rect.x = BULLET_SPEED * dts.sum ∧ b'.rect.y = y0 ∧
      b'.rect.w = w0 ∧ b'.rect.h = h0) ∧
    ((RectBullet.updates (sw, sh) ⟨⟨0, y0, w0, h0⟩⟩ dts).isSome ↔
      BULLET_SPEED * dts.sum ≤ sw) := by
  constructor
  · intro b' h
    have := RectBullet.updates_some_rect (sw, sh) dts _ _ h
    rw [this]
    refine ⟨by simp, rfl, rfl, rfl⟩
  · have := RectBullet.updates_isSome_iff (sw, sh) dts hd ⟨⟨0, y0, w0, h0⟩⟩ (by simpa using hw)
    simpa using this

/-- Witness for C8: two 1/60-second steps on an 800×600 screen leave the bullet
alive at `x = 8`. -/
theorem rectBullet_position_linear_alive_iff_witness :
    (RectBullet.updates ((800:ℚ), (600:ℚ)) ⟨⟨0, 300, 8, 4⟩⟩ [1/60, 1/60]).isSome :=
  (rectBullet_position_linear_alive_iff 300 8 4 800 600 [1/60, 1/60]
    (by intro d hdm; simp only [List.mem_cons, List.not_mem_nil, or_false] at hdm
        rcases hdm with rfl | rfl <;> norm_num)
    (by norm_num)).2.mpr (by norm_num [BULLET_SPEED])

/-! ## Player movement (src/views/game.rs, `Player::update`) -/

/-- Embedding of `PLAYER_SPEED` (pixels per second). -/
def PLAYER_SPEED : ℚ := 180

/-- Embedding of the movement-and-clamp part of `Player::update`
(src/views/game.rs lines 111-145). The cannon-switch and sprite-frame
selection parts of `Player::update` do not touch the player's rectangle and
are omitted here. The diagonal factor `1.0 / 2.0f64.sqrt()` of the source is
irrational, so it is abstracted as the parameter `invSqrt2`; every theorem
below holds for all values of it. The `unwrap` on `move_inside` is modelled
with `Option` (`none` = panic). -/
def Player.update_rect (rect : Rectangle)
    (key_left key_right key_up key_down : Bool)
    (elapsed : ℚ) (size : ℚ × ℚ) (invSqrt2 : ℚ) : Option Rectangle :=
  let diagonal := (xor key_up key_down) && (xor key_left key_right)
  let moved := (if diagonal then invSqrt2 else 1) * PLAYER_SPEED * elapsed
  let dx := match key_left, key_right with
    | true, true => 0
    | false, false => 0
    | true, false => -moved
    | false, true => moved
  let dy := match key_up, key_down with
    | true, true => 0
    | false, false => 0
    | true, false => -moved
    | false, true => moved
  let moved_rect := { rect with x := rect.x + dx, y := rect.y + dy }
  let movable_region : Rectangle :=
    { x := 0, y := 0, w := size.1 * (70/100), h := size.2 }
  moved_rect.move_inside movable_region

/-- C10: whenever the player's rectangle fits the movable region — the left 70%
of the screen width at full screen height — `Player::update` succeeds (the
clamp cannot fail) and the resulting rectangle lies fully inside
`[0, 0.70 * screen_width] × [0, screen_height]`, for every key state and time
step. -/
theorem player_update_inside_movable_region (rect : Rectangle)
    (kl kr ku kd : Bool) (elapsed sw sh invSqrt2 : ℚ)
    (hw : rect.w ≤ sw * (70/100)) (hh : rect.h ≤ sh) :
    (Player.update_rect rect kl kr ku kd elapsed (sw, sh) invSqrt2).isSome = true ∧
    ∀ r, Player.update_rect rect kl kr ku kd elapsed (sw, sh) invSqrt2 = some r →
      0 ≤ r.x ∧ r.x + r.w ≤ sw * (70/100) ∧ 0 ≤ r.y ∧ r.y + r.h ≤ sh := by
  constructor
  · cases hcase : Player.update_rect rect kl kr ku kd elapsed (sw, sh) invSqrt2 with
    | some r => rfl
    | none =>
      exfalso
      simp only [Player.update_rect] at hcase
      have h := (move_inside_spec_aux _ _).1.mp hcase
      dsimp only at h
      rcases h with h | h
      · exact absurd hw (by linarith)
      · exact absurd hh (by linarith)
  · intro r hr
    simp only [Player.update_rect] at hr
    have h := (move_inside_spec_aux _ _).2 r hr
    dsimp only at h
    obtain ⟨hrw, hrh, h1, h2, h3, h4, -⟩ := h
    exact ⟨h1, by linarith, h3, by linarith⟩

/-- Witness for C10 with the initial player rectangle on an 800×600 screen. -/
theorem player_update_inside_movable_region_witness :
    (Player.update_rect (Rectangle.mk 64 64 43 39) false false false false
      (1/60) (800, 600) (7071/10000)).isSome = true :=
  (player_update_inside_movable_region (Rectangle.mk 64 64 43 39) false false false false
    (1/60) 800 600 (7071/10000) (by norm_num) (by norm_num)).1

/-! ## Asteroids and explosions (src/views/game.rs) -/

/-- Embedding of `ASTEROID_SIDE`. -/
def ASTEROID_SIDE : ℚ := 96

/-- Embedding of `EXPLOSION_SIDE`. -/
def EXPLOSION_SIDE : ℚ := 96

/-- Embedding of `EXPLOSION_FPS`. -/
def EXPLOSION_FPS : ℚ := 16

/-- Embedding of `EXPLOSIONS_TOTAL`. -/
def EXPLOSIONS_TOTAL : ℕ := 17

/-- Embedding of `EXPLOSION_DURATION = 1.0 / EXPLOSION_FPS * EXPLOSIONS_TOTAL`. -/
def EXPLOSION_DURATION : ℚ := 1 / EXPLOSION_FPS * (EXPLOSIONS_TOTAL : ℚ)

/-- Embedding of `Asteroid`: geometry, animation state and horizontal velocity. -/
structure Asteroid where
  sprite : AnimatedSprite
  rect : Rectangle
  vel : ℚ
deriving DecidableEq, Repr

/-- Embedding of `Asteroid::update`: drift left by `dt * vel`, advance the
animation; removed (`none`) once fully past the left edge. -/
def Asteroid.update (self : Asteroid) (dt : ℚ) : Option Asteroid :=
  let r := { self.rect with x := self.rect.x - dt * self.vel }
  let sp := self.sprite.add_time dt
  if r.x ≤ -ASTEROID_SIDE then none else some { sprite := sp, rect := r, vel := self.vel }

/-- Embedding of `Explosion`: geometry, animation state and age. -/
structure Explosion where
  sprite : AnimatedSprite
  rect : Rectangle
  alive_since : ℚ
deriving DecidableEq, Repr

/-- Embedding of `Explosion::update`: age, advance the animation; removed
(`none`) once the age reaches `EXPLOSION_DURATION`. -/
def Explosion.update (self : Explosion) (dt : ℚ) : Option Explosion :=
  let t := self.alive_since + dt
  let sp := self.sprite.add_time dt
  if t ≥ EXPLOSION_DURATION then none
  else some { sprite := sp, rect := self.rect, alive_since := t }

/-- Embedding of `ExplosionFactory::at_center`: an explosion of fixed size
centered at the given point, with age 0 and a clone of the factory's shared
animation (`factorySprite`). -/
def ExplosionFactory.at_center (factorySprite : AnimatedSprite) (center : ℚ × ℚ) : Explosion :=
  { sprite := factorySprite
    rect := (Rectangle.with_size EXPLOSION_SIDE EXPLOSION_SIDE).center_at center
    alive_since := 0 }

/-! ## The collision pass (src/views/game.rs, `GameView::render` lines 441-487)

Bullets live behind `Box<Bullet>` trait objects; the pass only calls their
`rect()` method. The embedding is therefore parametric in the bullet type `B`
together with its `rect` method, mirroring dynamic dispatch. -/

/-- Embedding of the inner `for bullet in &mut transition_bullets` loop of the
collision pass: every bullet whose rectangle overlaps the asteroid's is marked
dead (regardless of its current flag), and the asteroid's alive flag (threaded
as `astAlive`) is cleared if any overlap occurred. -/
def hitTestBullets {B : Type} (brect : B → Rectangle) (arect : Rectangle) :
    List (MaybeAlive B) → Bool → List (MaybeAlive B) × Bool
  | [], astAlive => ([], astAlive)
  | mb :: rest, astAlive =>
    if arect.overlaps (brect mb.value) then
      let p := hitTestBullets brect arect rest false
      ({ alive := false, value := mb.value } :: p.1, p.2)
    else
      let p := hitTestBullets brect arect rest astAlive
      (mb :: p.1, p.2)

/-- Embedding of the `filter_map` sweep over asteroids in the collision pass,
threading the marked bullet list, the explosion list (`self.explosions`, to
which `at_center` explosions are pushed) and the `player_alive` flag exactly as
the source loop does. Returns (surviving asteroids, marked bullets, explosions,
player_alive). -/
def asteroidSweep {B : Type} (brect : B → Rectangle) (playerRect : Rectangle)
    (factorySprite : AnimatedSprite) :
    List Asteroid → List (MaybeAlive B) → List Explosion → Bool →
    List Asteroid × List (MaybeAlive B) × List Explosion × Bool
  | [], tb, exps, pa => ([], tb, exps, pa)
  | a :: rest, tb, exps, pa =>
    let hb := hitTestBullets brect a.rect tb true
    let hitPlayer := a.rect.overlaps playerRect
    let astAlive := hb.2 && !hitPlayer
    let pa1 := if hitPlayer then false else pa
    let exps1 := if astAlive then exps
      else exps ++ [ExplosionFactory.at_center factorySprite a.rect.center]
    let res := asteroidSweep brect playerRect factorySprite rest hb.1 exps1 pa1
    (if astAlive then a :: res.1 else res.1, res.2.1, res.2.2.1, res.2.2.2)

/-- Embedding of the whole collision pass: wrap the bullets in `MaybeAlive`
with `alive = true`, sweep the asteroids, then keep only the bullets still
alive (`MaybeAlive::as_option`). -/
def collisionPass {B : Type} (brect : B → Rectangle) (playerRect : Rectangle)
    (factorySprite : AnimatedSprite) (asteroids : List Asteroid) (bullets : List B)
    (explosions : List Explosion) :
    List Asteroid × List B × List Explosion × Bool :=
  let tb := bullets.map (fun b => { alive := true, value := b : MaybeAlive B })
  let res := asteroidSweep brect playerRect factorySprite asteroids tb explosions true
  (res.1, res.2.1.filterMap MaybeAlive.as_option, res.2.2.1, res.2.2.2)

theorem hitTestBullets_eq {B : Type} (brect : B → Rectangle) (arect : Rectangle) :
    ∀ (tb : List (MaybeAlive B)) (astAlive : Bool),
      hitTestBullets brect arect tb astAlive =
        (tb.map (fun mb => if arect.overlaps (brect mb.value)
            then { alive := false, value := mb.value } else mb),
         astAlive && !(tb.any (fun mb => arect.overlaps (brect mb.value)))) := by
  intro tb
  induction tb with
  | nil => intro astAlive; simp [hitTestBullets]
  | cons mb rest ih =>
    intro astAlive
    simp only [hitTestBullets, List.map_cons, List.any_cons]
    split_ifs with hov
    · simp [ih false, hov]
    · simp [ih astAlive, hov]

theorem any_value_map {B : Type} (tb : List (MaybeAlive B)) (g : MaybeAlive B → MaybeAlive B)
    (hg : ∀ mb, (g mb).value = mb.value) (f : B → Bool) :
    (tb.map g).any (fun mb => f mb.value) = tb.any (fun mb => f mb.value) := by
  induction tb with
  | nil => rfl
  | cons mb rest ih => simp [List.any_cons, ih, hg]

theorem mark_map_comp {B : Type} (brect : B → Rectangle) (a : Asteroid) (rest : List Asteroid)
    (tb : List (MaybeAlive B)) :
    (tb.map (fun mb => if a.rect.overlaps (brect mb.value)
        then { alive := false, value := mb.value } else mb)).map
      (fun mb => MaybeAlive.mk
        (mb.alive && !(rest.any (fun x => x.rect.overlaps (brect mb.value)))) mb.value)
    = tb.map (fun mb => MaybeAlive.mk
        (mb.alive && !((a :: rest).any (fun x => x.rect.overlaps (brect mb.value))))
        mb.value) := by
  rw [List.map_map]
  apply List.map_congr_left
  intro mb _
  by_cases hov : a.rect.overlaps (brect mb.value)
  · simp [Function.comp, hov, List.any_cons]
  · simp [Function.comp, hov, List.any_cons]

theorem asteroidSweep_eq {B : Type} (brect : B → Rectangle) (pr : Rectangle)
    (ef : AnimatedSprite) :
    ∀ (L : List Asteroid) (tb : List (MaybeAlive B)) (exps : List Explosion) (pa : Bool),
      asteroidSweep brect pr ef L tb exps pa =
        (L.filter (fun a => !(tb.any (fun mb => a.rect.overlaps (brect mb.value)))
            && !(a.rect.overlaps pr)),
         tb.map (fun mb => MaybeAlive.mk
            (mb.alive && !(L.any (fun a => a.rect.overlaps (brect mb.value)))) mb.value),
         exps ++ (L.filter (fun a => (tb.any (fun mb => a.rect.overlaps (brect mb.value)))
            || a.rect.overlaps pr)).map
              (fun a => ExplosionFactory.at_center ef a.rect.center),
         pa && !(L.any (fun a => a.rect.overlaps pr))) := by
  intro L
  induction L with
  | nil =>
    intro tb exps pa
    have h2 : tb.map (fun mb => MaybeAlive.mk mb.alive mb.value) = tb := List.map_id tb
    simp only [asteroidSweep, List.filter_nil, List.any_nil, List.map_nil, List.append_nil,
      Bool.not_false, Bool.and_true]
    rw [h2]
  | cons a rest ih =>
    intro tb exps pa
    have hval : ∀ mb : MaybeAlive B,
        (if a.rect.overlaps (brect mb.value) then MaybeAlive.mk false mb.value else mb).value
          = mb.value := by
      intro mb
      split <;> rfl
    have hany : ∀ (f : B → Bool),
        ((tb.map (fun mb => if a.rect.overlaps (brect mb.value)
            then MaybeAlive.mk false mb.value else mb)).any (fun mb => f mb.value))
          = tb.any (fun mb => f mb.value) :=
      fun f => any_value_map tb _ hval f
    simp only [asteroidSweep]
    rw [hitTestBullets_eq]
    dsimp only
    rw [ih]
    have hany2 : ∀ q : Rectangle,
        tb.any ((fun mb => q.overlaps (brect mb.value)) ∘ (fun mb =>
          if a.rect.overlaps (brect mb.value) then MaybeAlive.mk false mb.value else mb))
          = tb.any (fun mb => q.overlaps (brect mb.value)) := by
      intro q
      rw [← List.any_map]
      exact hany (fun v => q.overlaps (brect v))
    cases hP : a.rect.overlaps pr <;>
      cases hA : tb.any (fun mb => a.rect.overlaps (brect mb.value)) <;>
        simp [hany, hA, hP, List.filter_cons, List.any_cons, List.append_assoc] <;>
          simp only [hany2] <;>
            (refine ⟨trivial, ?_, trivial⟩
             intro mb _
             by_cases hov : a.rect.overlaps (brect mb.value) <;> simp [hov])

theorem filterMap_as_option_map_mk {B : Type} (p : B → Bool) :
    ∀ l : List B,
      (l.map (fun b => MaybeAlive.mk (p b) b)).filterMap MaybeAlive.as_option = l.filter p := by
  intro l
  induction l with
  | nil => rfl
  | cons b rest ih =>
    cases hp : p b <;>
      simp [List.filterMap_cons, MaybeAlive.as_option, hp, ih, List.filter_cons]

theorem any_map_value {B : Type} (bullets : List B) (r : Rectangle) (brect : B → Rectangle) :
    ((bullets.map (fun b => MaybeAlive.mk true b)).any fun mb => r.overlaps (brect mb.value))
      = bullets.any (fun b => r.overlaps (brect b)) := by
  induction bullets with
  | nil => rfl
  | cons b rest ih => simp [List.any_cons, ih]

/-- Closed form of the collision pass: an asteroid survives iff it overlaps no
bullet and not the player; a bullet survives iff it overlaps no asteroid; one
explosion is pushed per destroyed asteroid, in sweep order, centered at that
asteroid's rectangle center; the player-alive flag clears iff some asteroid
overlaps the player. -/
theorem collisionPass_eq {B : Type} (brect : B → Rectangle) (pr : Rectangle)
    (ef : AnimatedSprite) (asteroids : List Asteroid) (bullets : List B)
    (explosions : List Explosion) :
    collisionPass brect pr ef asteroids bullets explosions =
      (asteroids.filter (fun a => !(bullets.any (fun b => a.rect.overlaps (brect b)))
          && !(a.rect.overlaps pr)),
       bullets.filter (fun b => !(asteroids.any (fun a => a.rect.overlaps (brect b)))),
       explosions ++ (asteroids.filter
          (fun a => (bullets.any (fun b => a.rect.overlaps (brect b))) || a.rect.overlaps pr)).map
            (fun a => ExplosionFactory.at_center ef a.rect.center),
       !(asteroids.any (fun a => a.rect.overlaps pr))) := by
  simp only [collisionPass]
  rw [asteroidSweep_eq]
  simp only [List.map_map, Function.comp_def, Bool.true_and, any_map_value]
  rw [filterMap_as_option_map_mk]

theorem any_of_countP_pos {B : Type} (p : B → Bool) :
    ∀ l : List B, 0 < l.countP p → l.any p = true := by
  intro l
  induction l with
  | nil => intro h; simp [List.countP_nil] at h
  | cons x rest ih =>
    intro h
    rw [List.countP_cons] at h
    cases hx : p x
    · rw [hx] at h
      simp only [Bool.false_eq_true, if_false, add_zero] at h
      simp [List.any_cons, hx, ih h]
    · simp [List.any_cons, hx]

/-- C1: if the asteroid population is the single asteroid `a`, `a` overlaps
exactly one bullet and does not overlap the player, then the collision pass
removes the asteroid (count 1 → 0), removes exactly one bullet, pushes exactly
one explosion, and that explosion's rectangle is centered at the center that
`a`'s rectangle had at collision time. -/
theorem collisionPass_single_asteroid_single_hit {B : Type} (brect : B → Rectangle)
    (pr : Rectangle) (ef : AnimatedSprite) (a : Asteroid) (bullets : List B)
    (explosions : List Explosion)
    (hone : bullets.countP (fun b => a.rect.overlaps (brect b)) = 1)
    (hpl : a.rect.overlaps pr = false) :
    (collisionPass brect pr ef [a] bullets explosions).1 = [] ∧
    (collisionPass brect pr ef [a] bullets explosions).2.1.length + 1 = bullets.length ∧
    (collisionPass brect pr ef [a] bullets explosions).2.2.1
      = explosions ++ [ExplosionFactory.at_center ef a.rect.center] ∧
    (ExplosionFactory.at_center ef a.rect.center).rect.center = a.rect.center := by
  have hbul : bullets.any (fun b => a.rect.overlaps (brect b)) = true :=
    any_of_countP_pos _ bullets (by omega)
  rw [collisionPass_eq]
  refine ⟨?_, ?_, ?_, ?_⟩
  · simp [List.filter_cons, hbul, hpl]
  · have hsplit := List.length_eq_length_filter_add (l := bullets)
      (fun b => a.rect.overlaps (brect b))
    rw [← List.countP_eq_length_filter, hone] at hsplit
    simp only [List.any_cons, List.any_nil, Bool.or_false]
    omega
  · simp [List.filter_cons, hbul, hpl]
  · exact center_at_center _ _

/-- Witness for C1: one asteroid at (100,100), one overlapping `RectBullet`,
a non-overlapping player rectangle. -/
theorem collisionPass_single_asteroid_single_hit_witness :
    (collisionPass RectBullet.rect (Rectangle.mk 0 0 43 39)
        (AnimatedSprite.mk [Rectangle.with_size 96 96] 1 0)
        [Asteroid.mk (AnimatedSprite.mk [Rectangle.with_size 96 96] 1 0)
          (Rectangle.mk 100 100 96 96) 50]
        [RectBullet.mk (Rectangle.mk 110 110 8 4)] []).1 = [] :=
  (collisionPass_single_asteroid_single_hit RectBullet.rect (Rectangle.mk 0 0 43 39)
    (AnimatedSprite.mk [Rectangle.with_size 96 96] 1 0)
    (Asteroid.mk (AnimatedSprite.mk [Rectangle.with_size 96 96] 1 0)
      (Rectangle.mk 100 100 96 96) 50)
    [RectBullet.mk (Rectangle.mk 110 110 8 4)] []
    (by norm_num [List.countP_cons, Rectangle.overlaps, RectBullet.rect])
    (by norm_num [Rectangle.overlaps])).1

/-- C3: a bullet `b` overlapping two or more of the asteroids entering the
collision sweep destroys all of them — each overlapped asteroid is removed
(none survives), each destroyed asteroid pushes one explosion centered at its
own rectangle (the explosions of `b`'s victims appear, in order, among the
pushed explosions), and at least two explosions are added. Marking `b` dead at
its first overlap does not stop the sweep. -/
theorem collisionPass_bullet_destroys_all_overlapped {B : Type} (brect : B → Rectangle)
    (pr : Rectangle) (ef : AnimatedSprite) (asteroids : List Asteroid) (bullets : List B)
    (explosions : List Explosion) (b : B) (hb : b ∈ bullets)
    (hmulti : 2 ≤ (asteroids.filter (fun a => a.rect.overlaps (brect b))).length) :
    (∀ a ∈ asteroids, a.rect.overlaps (brect b) = true →
      a ∉ (collisionPass brect pr ef asteroids bullets explosions).1) ∧
    ((asteroids.filter (fun a => a.rect.overlaps (brect b))).map
        (fun a => ExplosionFactory.at_center ef a.rect.center)).Sublist
      (collisionPass brect pr ef asteroids bullets explosions).2.2.1 ∧
    explosions.length + 2 ≤ (collisionPass brect pr ef asteroids bullets explosions).2.2.1.length := by
  have himp : ∀ a : Asteroid, a.rect.overlaps (brect b) = true →
      ((bullets.any (fun x => a.rect.overlaps (brect x))) || a.rect.overlaps pr) = true := by
    intro a hov
    have : bullets.any (fun x => a.rect.overlaps (brect x)) = true := by
      rw [List.any_eq_true]
      exact ⟨b, hb, hov⟩
    simp [this]
  have hsub : (asteroids.filter (fun a => a.rect.overlaps (brect b))).Sublist
      (asteroids.filter (fun a =>
        (bullets.any (fun x => a.rect.overlaps (brect x))) || a.rect.overlaps pr)) :=
    List.monotone_filter_right asteroids himp
  rw [collisionPass_eq]
  refine ⟨?_, ?_, ?_⟩
  · intro a ha hov hmem
    rw [List.mem_filter] at hmem
    have : bullets.any (fun x => a.rect.overlaps (brect x)) = true := by
      rw [List.any_eq_true]
      exact ⟨b, hb, hov⟩
    rw [this] at hmem
    simp at hmem
  · exact (hsub.map _).trans (List.sublist_append_right _ _)
  · have h1 := (hsub.map (fun a => ExplosionFactory.at_center ef a.rect.center)).length_le
    rw [List.length_map, List.length_map] at h1
    rw [List.length_append, List.length_map]
    omega

/-- Witness for C3: one bullet overlapping two asteroids; at least two
explosions are pushed. -/
theorem collisionPass_bullet_destroys_all_overlapped_witness :
    (0:ℕ) + 2 ≤ (collisionPass RectBullet.rect (Rectangle.mk 0 0 43 39)
        (AnimatedSprite.mk [Rectangle.with_size 96 96] 1 0)
        [Asteroid.mk (AnimatedSprite.mk [Rectangle.with_size 96 96] 1 0)
           (Rectangle.mk 100 100 96 96) 50,
         Asteroid.mk (AnimatedSprite.mk [Rectangle.with_size 96 96] 1 0)
           (Rectangle.mk 60 80 96 96) 50]
        [RectBullet.mk (Rectangle.mk 110 110 8 4)] []).2.2.1.length :=
  (collisionPass_bullet_destroys_all_overlapped RectBullet.rect (Rectangle.mk 0 0 43 39)
    (AnimatedSprite.mk [Rectangle.with_size 96 96] 1 0)
    [Asteroid.mk (AnimatedSprite.mk [Rectangle.with_size 96 96] 1 0)
       (Rectangle.mk 100 100 96 96) 50,
     Asteroid.mk (AnimatedSprite.mk [Rectangle.with_size 96 96] 1 0)
       (Rectangle.mk 60 80 96 96) 50]
    [RectBullet.mk (Rectangle.mk 110 110 8 4)] []
    (RectBullet.mk (Rectangle.mk 110 110 8 4)) (by simp)
    (by norm_num [List.filter_cons, Rectangle.overlaps, RectBullet.rect])).2.2

/-! ## The frame update (src/views/game.rs, `GameView::render`) -/

/-- Embedding of `ViewAction` (src/phi/mod.rs); the boxed view carried by
`ChangeView` is platform-side and not modelled. -/
inductive ViewAction where
  | None
  | Quit
  | ChangeView
deriving DecidableEq, Repr

/-- The per-frame input snapshot read by `GameView::render`. Edge-triggered keys
(`now.key_escape`, `now.key_space`) are `Option Bool` exactly as produced by the
events layer (`some true` = just pressed); movement keys are hold-state
booleans. -/
structure FrameEvents where
  quit : Bool
  key_escape : Option Bool
  key_space : Option Bool
  key_left : Bool
  key_right : Bool
  key_up : Bool
  key_down : Bool
deriving DecidableEq, Repr

/-- The simulation state owned by `GameView`: the player's rectangle (see
`Player.update_rect`; the sprite-frame and cannon fields do not interact with
the collision logic), and the three entity populations. Bullets are parametric
(`Box<Bullet>` trait objects). The player is a permanent field — there is no
way for a frame to remove it. -/
structure GameState (B : Type) where
  playerRect : Rectangle
  bullets : List B
  asteroids : List Asteroid
  explosions : List Explosion

/-- Embedding of the simulation logic of `GameView::render` (src/views/game.rs
lines 406-536), draw calls excluded. `bupdate`/`brect` are the bullet
trait-object interface; `spawn` is `Player::spawn_bullets` as a function of the
player's post-update rectangle (the cannon mode is constant during a frame);
`size` is `phi.output_size()`; `spawnRoll` is the
`rand::random::<usize>() & 100 == 0` draw and `newAsteroid` the
`asteroid_factory.random(phi)` result; `invSqrt2` is the diagonal factor of
`Player::update`; `efSprite` is the explosion factory's shared sprite. Returns
the view action, the new state, and the `player_alive` flag that the source
reports through `println!`; `none` models the `unwrap` panic when the player
cannot fit the movable region. -/
def frameUpdate {B : Type} (bupdate : B → ℚ × ℚ → ℚ → Option B) (brect : B → Rectangle)
    (spawn : Rectangle → List B) (efSprite : AnimatedSprite) (size : ℚ × ℚ)
    (elapsed : ℚ) (events : FrameEvents) (spawnRoll : Bool) (newAsteroid : Asteroid)
    (invSqrt2 : ℚ) (st : GameState B) : Option (ViewAction × GameState B × Bool) :=
  if events.quit then
    some (ViewAction.Quit, st, true)
  else if events.key_escape = some true then
    some (ViewAction.ChangeView, st, true)
  else
    match Player.update_rect st.playerRect events.key_left events.key_right
        events.key_up events.key_down elapsed size invSqrt2 with
    | none => none
    | some pr =>
      let bullets1 := st.bullets.filterMap (fun b => bupdate b size elapsed)
      let asteroids1 := st.asteroids.filterMap (fun a => a.update elapsed)
      let explosions1 := st.explosions.filterMap (fun e => e.update elapsed)
      let cp := collisionPass brect pr efSprite asteroids1 bullets1 explosions1
      let bullets2 := if events.key_space = some true then cp.2.1 ++ spawn pr else cp.2.1
      let asteroids2 := if spawnRoll then cp.1 ++ [newAsteroid] else cp.1
      some (ViewAction.None, GameState.mk pr bullets2 asteroids2 cp.2.2.1, cp.2.2.2)

/-- C2: on a non-quit, non-escape frame, pressing fire changes nothing except
appending the freshly spawned bullets (at the player's post-update position) to
the bullet list after the collision pass: the asteroids, explosions, player,
action and player-alive flag are identical to the same frame without the fire
edge. In particular a bullet fired in frame F never destroys an asteroid in
frame F, even if its spawn rectangle overlaps one. -/
theorem frameUpdate_fire_edge_after_collisions {B : Type}
    (bupdate : B → ℚ × ℚ → ℚ → Option B) (brect : B → Rectangle)
    (spawn : Rectangle → List B) (efSprite : AnimatedSprite) (size : ℚ × ℚ)
    (elapsed : ℚ) (events : FrameEvents) (spawnRoll : Bool) (newAsteroid : Asteroid)
    (invSqrt2 : ℚ) (st : GameState B)
    (hq : events.quit = false) (hesc : events.key_escape ≠ some true) :
    frameUpdate bupdate brect spawn efSprite size elapsed
        { events with key_space := some true } spawnRoll newAsteroid invSqrt2 st
      = (frameUpdate bupdate brect spawn efSprite size elapsed
          { events with key_space := none } spawnRoll newAsteroid invSqrt2 st).map
          (fun r => (r.1,
            { r.2.1 with bullets := r.2.1.bullets ++ spawn r.2.1.playerRect }, r.2.2)) := by
  have hq1 : ¬(({ events with key_space := some true } : FrameEvents).quit = true) := by
    show ¬(events.quit = true)
    rw [hq]
    exact Bool.false_ne_true
  have hq2 : ¬(({ events with key_space := none } : FrameEvents).quit = true) := by
    show ¬(events.quit = true)
    rw [hq]
    exact Bool.false_ne_true
  have hesc1 : ¬(({ events with key_space := some true } : FrameEvents).key_escape
      = some true) := by
    show ¬(events.key_escape = some true)
    exact hesc
  have hesc2 : ¬(({ events with key_space := none } : FrameEvents).key_escape
      = some true) := by
    show ¬(events.key_escape = some true)
    exact hesc
  simp only [frameUpdate]
  rw [if_neg hq1, if_neg hesc1, if_neg hq2, if_neg hesc2]
  dsimp only
  cases hpr : Player.update_rect st.playerRect events.key_left events.key_right
      events.key_up events.key_down elapsed size invSqrt2 with
  | none => rfl
  | some pr => simp

/-- Witness for C2: an empty-population frame with the fire key pressed equals
the fire-less frame with the two freshly spawned bullets appended. -/
theorem frameUpdate_fire_edge_after_collisions_witness :
    frameUpdate RectBullet.update RectBullet.rect
        (fun r => [RectBullet.mk (Rectangle.mk (r.x + 30) (r.y + 6) 8 4)])
        (AnimatedSprite.mk [Rectangle.with_size 96 96] 1 0) (800, 600) (1/60)
        (FrameEvents.mk false none (some true) false false false false)
        false
        (Asteroid.mk (AnimatedSprite.mk [Rectangle.with_size 96 96] 1 0)
          (Rectangle.mk 800 100 96 96) 50)
        (7071/10000)
        (GameState.mk (Rectangle.mk 64 64 43 39) [] [] [])
      = (frameUpdate RectBullet.update RectBullet.rect
          (fun r => [RectBullet.mk (Rectangle.mk (r.x + 30) (r.y + 6) 8 4)])
          (AnimatedSprite.mk [Rectangle.with_size 96 96] 1 0) (800, 600) (1/60)
          (FrameEvents.mk false none none false false false false)
          false
          (Asteroid.mk (AnimatedSprite.mk [Rectangle.with_size 96 96] 1 0)
            (Rectangle.mk 800 100 96 96) 50)
          (7071/10000)
          (GameState.mk (Rectangle.mk 64 64 43 39) [] [] [])).map
          (fun r => (r.1,
            { r.2.1 with bullets := r.2.1.bullets
              ++ [RectBullet.mk (Rectangle.mk (r.2.1.playerRect.x + 30)
                    (r.2.1.playerRect.y + 6) 8 4)] }, r.2.2)) :=
  frameUpdate_fire_edge_after_collisions RectBullet.update RectBullet.rect
    (fun r => [RectBullet.mk (Rectangle.mk (r.x + 30) (r.y + 6) 8 4)])
    (AnimatedSprite.mk [Rectangle.with_size 96 96] 1 0) (800, 600) (1/60)
    (FrameEvents.mk false none none false false false false)
    false
    (Asteroid.mk (AnimatedSprite.mk [Rectangle.with_size 96 96] 1 0)
      (Rectangle.mk 800 100 96 96) 50)
    (7071/10000)
    (GameState.mk (Rectangle.mk 64 64 43 39) [] [] [])
    rfl (by simp)

/-- C9: when an asteroid that survived the movement update overlaps the
post-update player rectangle on a non-quit, non-escape frame, the frame still
returns `ViewAction::None` (no transition or game over), the resulting player
rectangle is exactly the one produced by the movement update (the collision
leaves the player's state untouched, and the player field cannot be removed),
the reported player-alive flag is `false`, and the overlapping asteroid is
destroyed as usual: it does not survive the collision pass and its explosion
(centered on its rectangle) is pushed. -/
theorem player_collision_flag_only {B : Type}
    (bupdate : B → ℚ × ℚ → ℚ → Option B) (brect : B → Rectangle)
    (spawn : Rectangle → List B) (efSprite : AnimatedSprite) (size : ℚ × ℚ)
    (elapsed : ℚ) (events : FrameEvents) (spawnRoll : Bool) (newAsteroid : Asteroid)
    (invSqrt2 : ℚ) (st : GameState B) (pr : Rectangle) (a : Asteroid)
    (hq : events.quit = false) (hesc : events.key_escape ≠ some true)
    (hpr : Player.update_rect st.playerRect events.key_left events.key_right
      events.key_up events.key_down elapsed size invSqrt2 = some pr)
    (ha : a ∈ st.asteroids.filterMap (fun x => x.update elapsed))
    (hov : a.rect.overlaps pr = true) :
    (frameUpdate bupdate brect spawn efSprite size elapsed events spawnRoll newAsteroid
        invSqrt2 st).isSome = true ∧
    ∀ act st1 pa,
      frameUpdate bupdate brect spawn efSprite size elapsed events spawnRoll newAsteroid
          invSqrt2 st = some (act, st1, pa) →
        act = ViewAction.None ∧ st1.playerRect = pr ∧ pa = false ∧
        a ∉ (collisionPass brect pr efSprite
              (st.asteroids.filterMap (fun x => x.update elapsed))
              (st.bullets.filterMap (fun b => bupdate b size elapsed))
              (st.explosions.filterMap (fun e => e.update elapsed))).1 ∧
        ExplosionFactory.at_center efSprite a.rect.center ∈
          (collisionPass brect pr efSprite
              (st.asteroids.filterMap (fun x => x.update elapsed))
              (st.bullets.filterMap (fun b => bupdate b size elapsed))
              (st.explosions.filterMap (fun e => e.update elapsed))).2.2.1 := by
  have hanyP : ((st.asteroids.filterMap (fun x => x.update elapsed)).any
      (fun x => x.rect.overlaps pr)) = true := by
    rw [List.any_eq_true]
    exact ⟨a, ha, hov⟩
  have hpa : (collisionPass brect pr efSprite
      (st.asteroids.filterMap (fun x => x.update elapsed))
      (st.bullets.filterMap (fun b => bupdate b size elapsed))
      (st.explosions.filterMap (fun e => e.update elapsed))).2.2.2 = false := by
    rw [collisionPass_eq]
    dsimp only
    rw [hanyP]
    rfl
  have hnotmem : a ∉ (collisionPass brect pr efSprite
      (st.asteroids.filterMap (fun x => x.update elapsed))
      (st.bullets.filterMap (fun b => bupdate b size elapsed))
      (st.explosions.filterMap (fun e => e.update elapsed))).1 := by
    rw [collisionPass_eq]
    intro hmem
    rw [List.mem_filter] at hmem
    rw [hov] at hmem
    simp at hmem
  have hex : ExplosionFactory.at_center efSprite a.rect.center ∈
      (collisionPass brect pr efSprite
        (st.asteroids.filterMap (fun x => x.update elapsed))
        (st.bullets.filterMap (fun b => bupdate b size elapsed))
        (st.explosions.filterMap (fun e => e.update elapsed))).2.2.1 := by
    rw [collisionPass_eq]
    apply List.mem_append_right
    apply List.mem_map_of_mem
    rw [List.mem_filter]
    refine ⟨ha, ?_⟩
    rw [hov]
    simp
  have hq' : ¬(events.quit = true) := by
    rw [hq]
    exact Bool.false_ne_true
  constructor
  · simp only [frameUpdate]
    rw [if_neg hq', if_neg hesc, hpr]
    rfl
  · intro act st1 pa heq
    simp only [frameUpdate] at heq
    rw [if_neg hq', if_neg hesc, hpr] at heq
    dsimp only at heq
    rw [hpa] at heq
    have h := Option.some.inj heq
    injection h with hAct h2
    injection h2 with hSt hPa
    subst hAct
    subst hSt
    subst hPa
    exact ⟨rfl, rfl, rfl, hnotmem, hex⟩

/-- Witness for C9: a stationary frame (dt = 0) in which the lone asteroid at
(80, 80) overlaps the player at (64, 64); the frame still succeeds. -/
theorem player_collision_flag_only_witness :
    (frameUpdate RectBullet.update RectBullet.rect (fun _ => [])
        (AnimatedSprite.mk [Rectangle.with_size 96 96] 1 0) (800, 600) 0
        (FrameEvents.mk false none none false false false false) false
        (Asteroid.mk (AnimatedSprite.mk [Rectangle.with_size 96 96] 1 0)
          (Rectangle.mk 800 100 96 96) 50)
        (7071/10000)
        (GameState.mk (Rectangle.mk 64 64 43 39) []
          [Asteroid.mk (AnimatedSprite.mk [Rectangle.with_size 96 96] 1 0)
            (Rectangle.mk 80 80 96 96) 50] [])).isSome = true :=
  (player_collision_flag_only RectBullet.update RectBullet.rect (fun _ => [])
    (AnimatedSprite.mk [Rectangle.with_size 96 96] 1 0) (800, 600) 0
    (FrameEvents.mk false none none false false false false) false
    (Asteroid.mk (AnimatedSprite.mk [Rectangle.with_size 96 96] 1 0)
      (Rectangle.mk 800 100 96 96) 50)
    (7071/10000)
    (GameState.mk (Rectangle.mk 64 64 43 39) []
      [Asteroid.mk (AnimatedSprite.mk [Rectangle.with_size 96 96] 1 0)
        (Rectangle.mk 80 80 96 96) 50] [])
    (Rectangle.mk 64 64 43 39)
    (Asteroid.mk (AnimatedSprite.mk [Rectangle.with_size 96 96] 1 0)
      (Rectangle.mk 80 80 96 96) 50)
    rfl (by simp)
    (by norm_num [Player.update_rect, PLAYER_SPEED, Rectangle.move_inside])
    (by norm_num [List.filterMap_cons, Asteroid.update, AnimatedSprite.add_time,
      AnimatedSprite.frames, ASTEROID_SIDE])
    (by norm_num [Rectangle.overlaps])).1
